import Mathlib

/-!
Shallow embedding of testmynet-cli (a Go command-line bandwidth tester).

Sources embedded:
* `src/flags.go`: command-line option resolution (`cmdLineOpts.parseFlags`,
  the location table, `locationList`).
* `src/unnamed/part_000` (the main file): `homeDir`, `overloadProtection`,
  the CSV/report formatting in `main`, and the orchestration of `main`
  around the rate limiter.

Modelling conventions:
* Go strings are Lean `String`s; byte slices of text are `String`s.
* The filesystem is explicit: the single rate-limit state file is an
  `Option StateFile` (content plus permission bits); `none` means the file
  does not exist.
* `time.Time` is modelled as a broken-down `Timestamp`; `time.Duration` is
  an `Int` number of nanoseconds, with instants linearised through the
  standard civil-calendar day count.  The Go standard library's
  `time.Format`/`time.Parse` for the `time.UnixDate` layout
  (`Mon Jan _2 15:04:05 MST 2006`) are embedded character by character.
* Environment interaction (`os.Getenv`, `user.Current`, `os.Stat`, file
  read/write failures) is an explicit environment record passed in.
-/

/-! ## Options resolver (src/flags.go) -/

/-- Flag defaults and the testmy.net domain, from the `const` block of
src/flags.go. -/
def defaultLocation : String := "ca"

/-- Default test size in KBytes (`defaultDataSize` in src/flags.go). -/
def defaultDataSize : Int := 10240

/-- The testmy.net domain constant (`tmnDomain` in src/flags.go). -/
def tmnDomain : String := "testmy.net"

/-- The resolved command-line options (`cmdLineOpts` in src/flags.go).
`verbose` is the value of the repeat-counting `multiLevelInt`. -/
structure cmdLineOpts where
  csv : Bool
  datasize : Int
  dryrun : Bool
  force : Bool
  location : String
  server : String
  verbose : Int
deriving DecidableEq, Repr

/-- The TMN server location table (`serverLocation` in src/flags.go),
as an association list with the 13 fixed entries. -/
def serverLocation : List (String × String) :=
  [("au2", "Australia >> Sydney, AU"),
   ("ca", "Bay Area US >> California, CA, USA"),
   ("co", "Central US >> Colorado Springs, CO, USA"),
   ("de", "Europe >> Frankfurt, DE"),
   ("fl", "East Coast US >> Miami, FL"),
   ("in", "Asia >> Bangalore, IN"),
   ("jp", "Asia >> Tokyo, JP"),
   ("lax", "West Coast US >> Los Angeles, CA, USA"),
   ("ny", "East Coast US >> New York, NY, USA"),
   ("sf", "West Coast US >> San Francisco, CA, USA"),
   ("sg", "Asia >> Singapore, SG"),
   ("tx", "Central US >> Dallas, TX, USA"),
   ("uk", "Europe >> London, GB")]

/-- Go map lookup `serverLocation[k]`: the value stored under key `k`,
or `none` when the key is absent. -/
def lookupLoc (k : String) : Option String :=
  (serverLocation.find? (fun p => p.1 == k)).map (fun p => p.2)

/-- Insert a string into a `≤`-sorted list of strings. -/
def insertSorted (x : String) : List String → List String
  | [] => [x]
  | y :: ys => if x ≤ y then x :: y :: ys else y :: insertSorted x ys

/-- Sort a list of strings (models `sort.Strings` in `locationList`). -/
def sortStrings : List String → List String
  | [] => []
  | x :: xs => insertSorted x (sortStrings xs)

/-- Go's `%-4.4s` verb: truncate to at most 4 characters, then pad on the
right with spaces to width 4. -/
def pad44 (s : String) : String :=
  String.mk (s.data.take 4) ++ String.mk (List.replicate (4 - (s.data.take 4).length) ' ')

/-- `locationList` from src/flags.go: a formatted listing of the location
codes (keys of the global `serverLocation`, sorted) with the descriptions
taken from the `sloc` argument. -/
def locationList (sloc : List (String × String)) : String :=
  let keys := sortStrings (serverLocation.map (fun p => p.1))
  "Available Locations:\n" ++
    String.join (keys.map (fun k =>
      pad44 k ++ " " ++ (((sloc.find? (fun p => p.1 == k)).map (fun p => p.2)).getD "") ++ "\n"))

/-- Outcome of `cmdLineOpts.parseFlags` after the `flag` package has filled
the option record: the `--location help` path prints the listing and calls
`os.Exit(2)` (`helpExit`), validation failure returns an error, otherwise
the resolved options are produced. -/
inductive ParseFlagsResult where
  | helpExit (out : String)
  | err (msg : String)
  | ok (opts : cmdLineOpts)
deriving DecidableEq, Repr

/-- `cmdLineOpts.parseFlags` (src/flags.go, lines 78-106), starting after
`flag.Parse()`: `x` is the option record as filled in from the command
line.  On `location == "help"` the program prints the location list and
exits with status 2; an unknown location is an error; otherwise, when
`server` was not directly specified (empty string), it is synthesized as
`http://<location>.<tmnDomain>`. -/
def parseFlags (x : cmdLineOpts) : ParseFlagsResult :=
  if x.location = "help" then
    .helpExit (locationList serverLocation)
  else
    match lookupLoc x.location with
    | none =>
        .err ("unable to find location \"" ++ x.location ++
          "\". Use \"--location help\" to see all locations")
    | some _ =>
        .ok (if x.server = "" then
              { x with server := "http://" ++ x.location ++ "." ++ tmnDomain }
            else x)

/-- C5. For every successful flag resolution: a nonempty (explicitly
supplied) server flag is used verbatim as the final server URL; otherwise
the final server URL is `http://<location>.testmy.net` for the resolved
location. -/
theorem parseFlags_server_resolution (x y : cmdLineOpts)
    (h : parseFlags x = .ok y) :
    (x.server ≠ "" → y.server = x.server) ∧
    (x.server = "" → y.server = "http://" ++ x.location ++ "." ++ tmnDomain) := by
  unfold parseFlags at h
  by_cases hloc : x.location = "help"
  · simp [hloc] at h
  · simp only [hloc, if_false] at h
    cases hfind : lookupLoc x.location with
    | none => rw [hfind] at h; exact absurd h (by simp)
    | some d =>
        rw [hfind] at h
        simp only [ParseFlagsResult.ok.injEq] at h
        by_cases hs : x.server = ""
        · subst h
          refine ⟨fun hne => absurd hs hne, fun _ => ?_⟩
          simp [hs]
        · subst h
          simp [hs]

/-- Witness for C5: the default options (location `"ca"`, no explicit
server) resolve to the server URL `http://ca.testmy.net`. -/
theorem parseFlags_server_resolution_witness :
    (cmdLineOpts.server
        ⟨false, 10240, false, false, "ca", "", 0⟩ ≠ "" →
      cmdLineOpts.server
        ⟨false, 10240, false, false, "ca", "http://ca.testmy.net", 0⟩ =
      cmdLineOpts.server ⟨false, 10240, false, false, "ca", "", 0⟩) ∧
    (cmdLineOpts.server ⟨false, 10240, false, false, "ca", "", 0⟩ = "" →
      cmdLineOpts.server
        ⟨false, 10240, false, false, "ca", "http://ca.testmy.net", 0⟩ =
      "http://" ++ cmdLineOpts.location ⟨false, 10240, false, false, "ca", "", 0⟩ ++
        "." ++ tmnDomain) :=
  parseFlags_server_resolution
    ⟨false, 10240, false, false, "ca", "", 0⟩
    ⟨false, 10240, false, false, "ca", "http://ca.testmy.net", 0⟩
    (by decide)

/-- C6. Location validation is unconditional: whenever the location value
is neither `"help"` nor a key of the location table, `parseFlags` fails
with the error naming the unknown location, whatever the other fields
(including an explicitly supplied server URL). -/
theorem parseFlags_invalid_location (x : cmdLineOpts)
    (h1 : x.location ≠ "help") (h2 : lookupLoc x.location = none) :
    parseFlags x = .err ("unable to find location \"" ++ x.location ++
      "\". Use \"--location help\" to see all locations") := by
  unfold parseFlags
  simp [h1, h2]

/-- Witness for C6: location `"zz"` is rejected even though an explicit
server URL is supplied. -/
theorem parseFlags_invalid_location_witness :
    parseFlags ⟨false, 10240, false, false, "zz", "http://example.com", 0⟩ =
      .err ("unable to find location \"" ++
        cmdLineOpts.location ⟨false, 10240, false, false, "zz", "http://example.com", 0⟩ ++
        "\". Use \"--location help\" to see all locations") :=
  parseFlags_invalid_location
    ⟨false, 10240, false, false, "zz", "http://example.com", 0⟩
    (by decide) (by decide)

/-! ## Time: the `time.UnixDate` layout (Go standard library, as used by
`overloadProtection`)

`overloadProtection` serializes timestamps with
`tim.Format(time.UnixDate)` and reads them back with
`time.Parse(time.UnixDate, ...)`.  The layout is
`Mon Jan _2 15:04:05 MST 2006`.  We embed a broken-down time value and the
format/parse pair for exactly this layout.  The `MST` verb's reader is
embedded as the Go `time` package's `parseTimeZone` (current Go: the
`ChST`/`MeST` and `WITA` special cases, the `GMT`-with-offset handling,
the signed numeric-offset abbreviations whose number may not exceed 23,
the `UTC` fast path of `Parse`, and the 3-to-5 uppercase-letter rules).
Simplifications, stated here once: `leadingInt` is over `Nat` without
Go's `int64` overflow error (only reachable past 19 digits), and the
elapsed-time comparison treats all timestamps as being in one fixed zone
(the state file is written and read on the same machine). -/

/-- A broken-down time value, the fields that the `UnixDate` layout
prints: weekday (0 = Sunday), month (1-12), day of month, clock fields,
time-zone abbreviation, year. -/
structure Timestamp where
  wday : Nat
  month : Nat
  day : Nat
  hour : Nat
  minute : Nat
  second : Nat
  tz : String
  year : Nat
deriving DecidableEq, Repr

/-- Short weekday names, index 0 = Sunday (Go `shortDayNames`). -/
def weekdayNames : List String :=
  ["Sun", "Mon", "Tue", "Wed", "Thu", "Fri", "Sat"]

/-- Short month names, index 0 = January (Go `shortMonthNames`). -/
def monthNames : List String :=
  ["Jan", "Feb", "Mar", "Apr", "May", "Jun",
   "Jul", "Aug", "Sep", "Oct", "Nov", "Dec"]

/-- Go's name-table indexing `names[i]` (the index is always in range in
the Go code; out of range yields the empty string here). -/
def nameAt (names : List String) (i : Nat) : String := names.getD i ""

/-- The decimal digit character for `n < 10`. -/
def digitChar (n : Nat) : Char := Char.ofNat (48 + n)

/-- Two-digit zero-padded decimal rendering (Go `appendInt(b, x, 2)`,
for `0 ≤ n < 100`). -/
def pad2c (n : Nat) : List Char := [digitChar (n / 10), digitChar (n % 10)]

/-- Four-digit zero-padded decimal rendering of the year
(Go `appendInt(b, year, 4)`, for `0 ≤ n < 10000`). -/
def pad4c (n : Nat) : List Char :=
  [digitChar (n / 1000), digitChar (n / 100 % 10),
   digitChar (n / 10 % 10), digitChar (n % 10)]

/-- The `_2` layout verb on the format side: days below 10 get one leading
space, otherwise two decimal digits (for `1 ≤ n < 100`). -/
def dayChars (n : Nat) : List Char :=
  if n < 10 then [' ', digitChar n]
  else [digitChar (n / 10), digitChar (n % 10)]

/-- `time.Format(time.UnixDate)` for a broken-down `Timestamp`, as a
character list: `Mon Jan _2 15:04:05 MST 2006`. -/
def formatChars (t : Timestamp) : List Char :=
  (nameAt weekdayNames t.wday).data ++
  (' ' :: ((nameAt monthNames (t.month - 1)).data ++
  (' ' :: (dayChars t.day ++
  (' ' :: (pad2c t.hour ++
  (':' :: (pad2c t.minute ++
  (':' :: (pad2c t.second ++
  (' ' :: (t.tz.data ++
  (' ' :: pad4c t.year)))))))))))))

/-- `tim.Format(time.UnixDate)` (the string written to the state file at
src/unnamed/part_000 line 119). -/
def formatUnixDate (t : Timestamp) : String := String.mk (formatChars t)

/-- The numeric value of a decimal digit character, `none` for
non-digits. -/
def digit? (c : Char) : Option Nat :=
  if 48 ≤ c.toNat ∧ c.toNat ≤ 57 then some (c.toNat - 48) else none

/-- Consume an exact literal character sequence from the input, returning
the remainder (how Go's `Parse` consumes layout literals and name
matches). -/
def stripLit (p : List Char) (s : List Char) : Option (List Char) :=
  match p, s with
  | [], rest => some rest
  | c :: p', d :: s' => if c = d then stripLit p' s' else none
  | _ :: _, [] => none

/-- Go `lookup(names, value)`: find which of the `names` is a leading
part of the input, returning its index and the remainder.  `i` is the
index of the first candidate. -/
def lookupNameFrom (i : Nat) (names : List String) (s : List Char) :
    Option (Nat × List Char) :=
  match names with
  | [] => none
  | n :: ns =>
    match stripLit n.data s with
    | some rest => some (i, rest)
    | none => lookupNameFrom (i + 1) ns s

/-- Go `getnum(value, true)`: exactly two decimal digits. -/
def num2 (s : List Char) : Option (Nat × List Char) :=
  match s with
  | c1 :: c2 :: rest =>
    match digit? c1, digit? c2 with
    | some d1, some d2 => some (10 * d1 + d2, rest)
    | _, _ => none
  | _ => none

/-- Go `getnum4(value, true)` for the `2006` verb: exactly four decimal
digits. -/
def num4 (s : List Char) : Option (Nat × List Char) :=
  match s with
  | c1 :: c2 :: c3 :: c4 :: rest =>
    match digit? c1, digit? c2, digit? c3, digit? c4 with
    | some d1, some d2, some d3, some d4 =>
        some (10 * (10 * (10 * d1 + d2) + d3) + d4, rest)
    | _, _, _, _ => none
  | _ => none

/-- Go `getnum(value, false)`: one or two decimal digits (two when the
second character is also a digit). -/
def num12 (s : List Char) : Option (Nat × List Char) :=
  match s with
  | [] => none
  | c :: rest =>
    match digit? c with
    | none => none
    | some d =>
      match rest with
      | [] => some (d, [])
      | c2 :: rest2 =>
        match digit? c2 with
        | some d2 => some (10 * d + d2, rest2)
        | none => some (d, rest)

/-- The `_2` verb on the parse side: Go skips one leading space if
present, then reads one or two digits. -/
def dayNum (s : List Char) : Option (Nat × List Char) :=
  match s with
  | ' ' :: rest => num12 rest
  | _ => num12 s

/-- Uppercase ASCII letter test (as in Go's `parseTimeZone`). -/
def isUpper (c : Char) : Bool := 65 ≤ c.toNat && c.toNat ≤ 90

/-- Length of the leading run of uppercase ASCII letters. -/
def countUpper : List Char → Nat
  | [] => 0
  | c :: s => if isUpper c then countUpper s + 1 else 0

/-- Go `leadingInt`: consume the leading run of decimal digits,
returning the number read, how many characters were consumed, and the
remainder (over `Nat`; Go's overflow error needs more than 19 digits). -/
def leadingIntAux (acc : Nat) (cnt : Nat) : List Char → Nat × Nat × List Char
  | [] => (acc, cnt, [])
  | c :: s =>
    match digit? c with
    | some d => leadingIntAux (acc * 10 + d) (cnt + 1) s
    | none => (acc, cnt, c :: s)

/-- Go `parseSignedOffset`: a sign followed by digits reading as a number
of at most 23; returns the length consumed, 0 on failure. -/
def parseSignedOffset (s : List Char) : Nat :=
  match s with
  | [] => 0
  | c :: rest =>
    if c == '+' || c == '-' then
      let t := leadingIntAux 0 0 rest
      if t.2.1 = 0 then 0
      else if t.1 > 23 then 0
      else 1 + t.2.1
    else 0

/-- Go `parseGMT`: `GMT` may be followed by a signed hour offset in
`-14..12` (zero excluded); returns the length consumed (at least 3). -/
def parseGMT (s : List Char) : Nat :=
  match s.drop 3 with
  | [] => 3
  | c :: rest =>
    if c == '+' || c == '-' then
      let t := leadingIntAux 0 0 rest
      let x : Int := if c == '-' then -(t.1 : Int) else (t.1 : Int)
      if x = 0 || x < -14 || 12 < x then 3
      else 3 + 1 + t.2.1
    else 3

/-- Go `parseTimeZone`: how many characters of the input look like a
time-zone abbreviation.  In order: inputs shorter than 3 fail; `ChST`
and `MeST` (the zones with a lower-case letter) take 4; `GMT` is handed
to `parseGMT`; a sign starts a numeric-offset abbreviation; otherwise
the leading run of uppercase letters (counted up to 6) must have length
3, length 4 ending in `T` or spelling `WITA`, or length 5 ending in
`T`. -/
def parseTimeZone (s : List Char) : Option Nat :=
  if s.length < 3 then none
  else if s.take 4 = ['C', 'h', 'S', 'T'] || s.take 4 = ['M', 'e', 'S', 'T'] then some 4
  else if s.take 3 = ['G', 'M', 'T'] then some (parseGMT s)
  else if (match s with | c :: _ => c == '+' || c == '-' | [] => false) then
    let n := parseSignedOffset s
    if n > 0 then some n else none
  else
    let n := min (countUpper s) 6
    if n = 5 then
      (if (s.drop 4).head? = some 'T' then some 5 else none)
    else if n = 4 then
      (if (s.drop 3).head? = some 'T' || s.take 4 = ['W', 'I', 'T', 'A'] then some 4
       else none)
    else if n = 3 then some 3
    else none

/-- The `MST` verb on the parse side (Go `Parse`, case `stdTZ`): a
leading `UTC` is taken directly, anything else goes through
`parseTimeZone`. -/
def tzParse (s : List Char) : Option (String × List Char) :=
  if s.take 3 = ['U', 'T', 'C'] then some (String.mk (s.take 3), s.drop 3)
  else
    match parseTimeZone s with
    | some n => some (String.mk (s.take n), s.drop n)
    | none => none

/-- Digit value of a sign-less offset abbreviation body (what Go's
`leadingInt` reads from it). -/
def digitsVal (l : List Char) : Nat := (leadingIntAux 0 0 l).1

/-- The zone abbreviations whose written form the read path accepts back
at a word boundary: three uppercase letters; four or five uppercase
letters ending in `T` and not starting with `GMT` or `UTC`; the special
names `ChST`, `MeST`, `WITA`; or a sign followed by digits reading as a
number of at most 23.  (A bare multi-digit offset name such as `+0545`
reads as 545 and is rejected by `parseSignedOffset`.) -/
def goodZone (tz : String) : Bool :=
  (tz.data.length == 3 && tz.data.all isUpper) ||
  (tz.data == ['C', 'h', 'S', 'T']) ||
  (tz.data == ['M', 'e', 'S', 'T']) ||
  (tz.data == ['W', 'I', 'T', 'A']) ||
  (tz.data.length == 4 && tz.data.all isUpper && tz.data.drop 3 == ['T'] &&
    !(tz.data.take 3 == ['G', 'M', 'T']) && !(tz.data.take 3 == ['U', 'T', 'C'])) ||
  (tz.data.length == 5 && tz.data.all isUpper && tz.data.drop 4 == ['T'] &&
    !(tz.data.take 3 == ['G', 'M', 'T']) && !(tz.data.take 3 == ['U', 'T', 'C'])) ||
  (match tz.data with
   | c :: rest =>
     (c == '+' || c == '-') && !rest.isEmpty &&
       rest.all (fun d => (digit? d).isSome) && decide (digitsVal rest ≤ 23)
   | [] => false)

/-- Leap-year predicate (Go `isLeap`). -/
def isLeap (y : Nat) : Bool :=
  y % 4 == 0 && (y % 100 != 0 || y % 400 == 0)

/-- Days in a month (Go `daysIn`), used by `Parse`'s day-range check. -/
def daysIn (y : Nat) (m : Nat) : Nat :=
  if m = 2 then (if isLeap y then 29 else 28)
  else if m = 4 || m = 6 || m = 9 || m = 11 then 30
  else 31

/-- `time.Parse(time.UnixDate, ·)` on a character list: weekday name,
month name, `_2` day, `15:04:05` clock, zone abbreviation, 4-digit year;
then Go `Parse`'s range validation (hour below 24, minute and second
below 60, day within the month).  The weekday is recorded but, as in Go,
never checked against the date. -/
def parseChars (s : List Char) : Option Timestamp :=
  match lookupNameFrom 0 weekdayNames s with
  | none => none
  | some (w, s1) =>
  match stripLit [' '] s1 with
  | none => none
  | some s2 =>
  match lookupNameFrom 0 monthNames s2 with
  | none => none
  | some (mi, s3) =>
  match stripLit [' '] s3 with
  | none => none
  | some s4 =>
  match dayNum s4 with
  | none => none
  | some (d, s5) =>
  match stripLit [' '] s5 with
  | none => none
  | some s6 =>
  match num2 s6 with
  | none => none
  | some (h, s7) =>
  match stripLit [':'] s7 with
  | none => none
  | some s8 =>
  match num2 s8 with
  | none => none
  | some (mn, s9) =>
  match stripLit [':'] s9 with
  | none => none
  | some s10 =>
  match num2 s10 with
  | none => none
  | some (sec, s11) =>
  match stripLit [' '] s11 with
  | none => none
  | some s12 =>
  match tzParse s12 with
  | none => none
  | some (tz, s13) =>
  match stripLit [' '] s13 with
  | none => none
  | some s14 =>
  match num4 s14 with
  | none => none
  | some (y, s15) =>
  if s15 = [] ∧ h < 24 ∧ mn < 60 ∧ sec < 60 ∧ 1 ≤ d ∧ d ≤ daysIn y (mi + 1) then
    some ⟨w, mi + 1, d, h, mn, sec, tz, y⟩
  else none

/-- `time.Parse(time.UnixDate, ·)` (the read path of the state file at
src/unnamed/part_000 line 103). -/
def parseUnixDate (s : String) : Option Timestamp := parseChars s.data

/-! ### Round-trip of the UnixDate layout (claim C9) -/

/-- Rebuilding a string from its character list is the identity. -/
theorem String_mk_data (s : String) : String.mk s.data = s := rfl

/-- Parsing back the digit character of `d < 10`. -/
theorem digit?_digitChar (d : Nat) (h : d < 10) :
    digit? (digitChar d) = some d := by
  interval_cases d <;> decide

/-- `num2` reads back a two-digit zero-padded number. -/
theorem num2_pad2c (n : Nat) (h : n < 100) (rest : List Char) :
    num2 (pad2c n ++ rest) = some (n, rest) := by
  have h1 : n / 10 < 10 := by omega
  have h2 : n % 10 < 10 := by omega
  simp [pad2c, num2, digit?_digitChar _ h1, digit?_digitChar _ h2]
  omega

/-- `num4` reads back a four-digit zero-padded number. -/
theorem num4_pad4c (n : Nat) (h : n < 10000) (rest : List Char) :
    num4 (pad4c n ++ rest) = some (n, rest) := by
  have h1 : n / 1000 < 10 := by omega
  have h2 : n / 100 % 10 < 10 := by omega
  have h3 : n / 10 % 10 < 10 := by omega
  have h4 : n % 10 < 10 := by omega
  simp [pad4c, num4, digit?_digitChar _ h1, digit?_digitChar _ h2,
    digit?_digitChar _ h3, digit?_digitChar _ h4]
  omega

/-- `num4` at the end of the input. -/
theorem num4_pad4c_nil (n : Nat) (h : n < 10000) :
    num4 (pad4c n) = some (n, []) := by
  have := num4_pad4c n h []
  simpa using this

/-- The `_2` day field round-trips when followed by a space. -/
theorem dayNum_dayChars (d : Nat) (h1 : 1 ≤ d) (h2 : d ≤ 31)
    (tail : List Char) :
    dayNum (dayChars d ++ ' ' :: tail) = some (d, ' ' :: tail) := by
  interval_cases d <;> rfl

/-- A one-character literal is consumed from a matching input. -/
theorem stripLit_single (c : Char) (rest : List Char) :
    stripLit [c] (c :: rest) = some rest := by
  simp [stripLit]

/-- The weekday-name table lookup reads back the formatted weekday. -/
theorem lookup_weekday (w : Nat) (hw : w < 7) (rest : List Char) :
    lookupNameFrom 0 weekdayNames ((nameAt weekdayNames w).data ++ rest) =
      some (w, rest) := by
  interval_cases w <;> rfl

/-- The month-name table lookup reads back the formatted month. -/
theorem lookup_month (m : Nat) (h1 : 1 ≤ m) (h2 : m ≤ 12) (rest : List Char) :
    lookupNameFrom 0 monthNames ((nameAt monthNames (m - 1)).data ++ rest) =
      some (m - 1, rest) := by
  interval_cases m <;> rfl

/-- An uppercase letter differs from any non-uppercase character. -/
theorem ne_of_isUpper (c d : Char) (hc : isUpper c = true)
    (hd : isUpper d = false) : c ≠ d := by
  intro he
  subst he
  rw [hc] at hd
  cases hd

/-- An uppercase letter is not a sign character. -/
theorem signCheck_false (c : Char) (h : isUpper c = true) :
    (c == '+' || c == '-') = false := by
  have h1 : c ≠ '+' := ne_of_isUpper c '+' h (by decide)
  have h2 : c ≠ '-' := ne_of_isUpper c '-' h (by decide)
  simp [h1, h2]

/-- Counting uppercase letters stops at the first non-uppercase
character. -/
theorem countUpper_append (l : List Char) (hu : l.all isUpper = true)
    (c : Char) (hc : isUpper c = false) (tail : List Char) :
    countUpper (l ++ c :: tail) = l.length := by
  induction l with
  | nil => simp [countUpper, hc]
  | cons a l ih =>
    simp only [List.all_cons, Bool.and_eq_true] at hu
    simp [countUpper, hu.1, ih hu.2]

/-- `leadingIntAux` consumes an all-digit run up to the first
non-digit. -/
theorem leadingIntAux_append (rest : List Char)
    (h : rest.all (fun d => (digit? d).isSome) = true)
    (c : Char) (hc : digit? c = none) (tail : List Char) (acc cnt : Nat) :
    leadingIntAux acc cnt (rest ++ c :: tail) =
      ((leadingIntAux acc cnt rest).1, (leadingIntAux acc cnt rest).2.1,
        c :: tail) := by
  induction rest generalizing acc cnt with
  | nil => simp [leadingIntAux, hc]
  | cons d ds ih =>
    simp only [List.all_cons, Bool.and_eq_true] at h
    obtain ⟨hd, hds⟩ := h
    rcases hdd : digit? d with _ | v
    · rw [hdd] at hd
      simp at hd
    · simp [leadingIntAux, hdd, ih hds]

/-- On an all-digit run, `leadingIntAux` consumes every character. -/
theorem leadingIntAux_count (rest : List Char)
    (h : rest.all (fun d => (digit? d).isSome) = true) (acc cnt : Nat) :
    (leadingIntAux acc cnt rest).2.1 = cnt + rest.length := by
  induction rest generalizing acc cnt with
  | nil => simp [leadingIntAux]
  | cons d ds ih =>
    simp only [List.all_cons, Bool.and_eq_true] at h
    obtain ⟨hd, hds⟩ := h
    rcases hdd : digit? d with _ | v
    · rw [hdd] at hd
      simp at hd
    · simp [leadingIntAux, hdd, ih hds]
      omega
/-- A zone abbreviation of any accepted shape reads back from a word
boundary. -/
theorem tzParse_good (tz : String) (h : goodZone tz = true) (tail : List Char) :
    tzParse (tz.data ++ ' ' :: tail) = some (tz, ' ' :: tail) := by
  obtain ⟨l⟩ := tz
  replace h : goodZone (String.mk l) = true := h
  simp only [goodZone, Bool.or_eq_true, Bool.and_eq_true, beq_iff_eq,
    Bool.not_eq_true', beq_eq_false_iff_ne, decide_eq_true_eq] at h
  rcases h with (((((⟨h3, hu⟩ | rfl) | rfl) | rfl) |
      ⟨⟨⟨⟨h4, hu⟩, hdrop⟩, hgmt⟩, hutc⟩) |
    ⟨⟨⟨⟨h5, hu⟩, hdrop⟩, hgmt⟩, hutc⟩) | hnum
  · -- three uppercase letters
    rcases l with _ | ⟨a, l⟩
    · simp at h3
    rcases l with _ | ⟨b, l⟩
    · simp at h3
    rcases l with _ | ⟨c, l⟩
    · simp at h3
    rcases l with _ | ⟨d, l⟩
    case cons => simp at h3
    simp only [List.all_cons, List.all_nil, Bool.and_eq_true, Bool.and_true] at hu
    obtain ⟨ha, hb, hc⟩ := hu
    by_cases hUTC : ([a, b, c] : List Char) = ['U', 'T', 'C']
    · obtain ⟨rfl, rfl, rfl⟩ : a = 'U' ∧ b = 'T' ∧ c = 'C' := by simpa using hUTC
      rfl
    by_cases hGMT : ([a, b, c] : List Char) = ['G', 'M', 'T']
    · obtain ⟨rfl, rfl, rfl⟩ : a = 'G' ∧ b = 'M' ∧ c = 'T' := by simpa using hGMT
      rfl
    have hsign : (a == '+' || a == '-') = false := signCheck_false a ha
    have hcu : countUpper (a :: b :: c :: ' ' :: tail) = 3 :=
      countUpper_append [a, b, c] (by simp [ha, hb, hc]) ' ' (by decide) tail
    have e1 : List.take 3 (a :: b :: c :: ' ' :: tail) = [a, b, c] := rfl
    have e2 : List.take 4 (a :: b :: c :: ' ' :: tail) = [a, b, c, ' '] := rfl
    have e4 : List.drop 3 (a :: b :: c :: ' ' :: tail) = ' ' :: tail := rfl
    have e3 : (tail.length + 1 + 1 + 1 + 1 < 3) = False := eq_false (by omega)
    have e5 : (3 : Nat) ⊓ 6 = 3 := rfl
    simp [tzParse, parseTimeZone, e1, e2, e3, e4, e5, hUTC, hGMT, hsign, hcu]
  · -- ChST
    rfl
  · -- MeST
    rfl
  · -- WITA
    rfl
  · -- four uppercase ending in T
    rcases l with _ | ⟨a, l⟩
    · simp at h4
    rcases l with _ | ⟨b, l⟩
    · simp at h4
    rcases l with _ | ⟨c, l⟩
    · simp at h4
    rcases l with _ | ⟨d, l⟩
    · simp at h4
    rcases l with _ | ⟨e, l⟩
    case cons => simp at h4
    simp only [List.drop_succ_cons, List.drop_zero] at hdrop
    obtain rfl : d = 'T' := by simpa using hdrop
    simp only [List.all_cons, List.all_nil, Bool.and_eq_true, Bool.and_true] at hu
    obtain ⟨ha, hb, hc, _⟩ := hu
    have hbh : b ≠ 'h' := ne_of_isUpper b 'h' hb (by decide)
    have hbe : b ≠ 'e' := ne_of_isUpper b 'e' hb (by decide)
    have hutc2 : ¬(a = 'U' ∧ b = 'T' ∧ c = 'C') := by simpa using hutc
    have hgmt2 : ¬(a = 'G' ∧ b = 'M' ∧ c = 'T') := by simpa using hgmt
    have hTT : isUpper 'T' = true := by decide
    have hsign : (a == '+' || a == '-') = false := signCheck_false a ha
    have hcu : countUpper (a :: b :: c :: 'T' :: ' ' :: tail) = 4 :=
      countUpper_append [a, b, c, 'T'] (by simp [ha, hb, hc, hTT]) ' ' (by decide) tail
    have e1 : List.take 3 (a :: b :: c :: 'T' :: ' ' :: tail) = [a, b, c] := rfl
    have e2 : List.take 4 (a :: b :: c :: 'T' :: ' ' :: tail) = [a, b, c, 'T'] := rfl
    have e4 : List.drop 3 (a :: b :: c :: 'T' :: ' ' :: tail) = 'T' :: ' ' :: tail := rfl
    have e6 : List.drop 4 (a :: b :: c :: 'T' :: ' ' :: tail) = ' ' :: tail := rfl
    have e3 : (tail.length + 1 + 1 + 1 + 1 + 1 < 3) = False := eq_false (by omega)
    have e5 : (4 : Nat) ⊓ 6 = 4 := rfl
    simp [tzParse, parseTimeZone, e1, e2, e3, e4, e5, e6,
      hutc2, hgmt2, hbh, hbe, hsign, hcu]
  · -- five uppercase ending in T
    rcases l with _ | ⟨a, l⟩
    · simp at h5
    rcases l with _ | ⟨b, l⟩
    · simp at h5
    rcases l with _ | ⟨c, l⟩
    · simp at h5
    rcases l with _ | ⟨d, l⟩
    · simp at h5
    rcases l with _ | ⟨e, l⟩
    · simp at h5
    rcases l with _ | ⟨f, l⟩
    case cons => simp at h5
    simp only [List.drop_succ_cons, List.drop_zero] at hdrop
    obtain rfl : e = 'T' := by simpa using hdrop
    simp only [List.all_cons, List.all_nil, Bool.and_eq_true, Bool.and_true] at hu
    obtain ⟨ha, hb, hc, hd, _⟩ := hu
    have hbh : b ≠ 'h' := ne_of_isUpper b 'h' hb (by decide)
    have hbe : b ≠ 'e' := ne_of_isUpper b 'e' hb (by decide)
    have hutc2 : ¬(a = 'U' ∧ b = 'T' ∧ c = 'C') := by simpa using hutc
    have hgmt2 : ¬(a = 'G' ∧ b = 'M' ∧ c = 'T') := by simpa using hgmt
    have hTT : isUpper 'T' = true := by decide
    have hsign : (a == '+' || a == '-') = false := signCheck_false a ha
    have hcu : countUpper (a :: b :: c :: d :: 'T' :: ' ' :: tail) = 5 :=
      countUpper_append [a, b, c, d, 'T'] (by simp [ha, hb, hc, hd, hTT]) ' ' (by decide) tail
    have e1 : List.take 3 (a :: b :: c :: d :: 'T' :: ' ' :: tail) = [a, b, c] := rfl
    have e2 : List.take 4 (a :: b :: c :: d :: 'T' :: ' ' :: tail) = [a, b, c, d] := rfl
    have e4 : List.drop 3 (a :: b :: c :: d :: 'T' :: ' ' :: tail) = d :: 'T' :: ' ' :: tail := rfl
    have e6 : List.drop 4 (a :: b :: c :: d :: 'T' :: ' ' :: tail) = 'T' :: ' ' :: tail := rfl
    have e7 : List.take 5 (a :: b :: c :: d :: 'T' :: ' ' :: tail) = [a, b, c, d, 'T'] := rfl
    have e8 : List.drop 5 (a :: b :: c :: d :: 'T' :: ' ' :: tail) = ' ' :: tail := rfl
    have e3 : (tail.length + 1 + 1 + 1 + 1 + 1 + 1 < 3) = False := eq_false (by omega)
    have e5 : (5 : Nat) ⊓ 6 = 5 := rfl
    simp [tzParse, parseTimeZone, e1, e2, e3, e4, e5, e6, e7, e8,
      hutc2, hgmt2, hbh, hbe, hsign, hcu]
  · -- signed numeric offset
    rcases l with _ | ⟨c0, rest⟩
    · simp at hnum
    simp only [Bool.and_eq_true, Bool.or_eq_true, beq_iff_eq,
      Bool.not_eq_true', decide_eq_true_eq] at hnum
    obtain ⟨⟨⟨hsgn, hne⟩, hdig⟩, hval⟩ := hnum
    have hrne : rest ≠ [] := by
      intro he
      rw [he] at hne
      simp at hne
    have hrlen : ¬(rest.length = 0) := by
      simpa using hrne
    have hcU : c0 ≠ 'U' := by rcases hsgn with rfl | rfl <;> decide
    have hcC : c0 ≠ 'C' := by rcases hsgn with rfl | rfl <;> decide
    have hcM : c0 ≠ 'M' := by rcases hsgn with rfl | rfl <;> decide
    have hcG : c0 ≠ 'G' := by rcases hsgn with rfl | rfl <;> decide
    have hcW : c0 ≠ 'W' := by rcases hsgn with rfl | rfl <;> decide
    have hsignT : (c0 == '+' || c0 == '-') = true := by
      rcases hsgn with rfl | rfl <;> rfl
    have hL := leadingIntAux_append rest hdig ' ' (by decide) tail 0 0
    have hC := leadingIntAux_count rest hdig 0 0
    have hng : ¬((leadingIntAux 0 0 rest).1 > 23) := by
      simp only [digitsVal] at hval
      omega
    have ht : List.take (1 + rest.length) (c0 :: (rest ++ ' ' :: tail)) = c0 :: rest := by
      rw [show (1 + rest.length) = rest.length + 1 by omega]
      simp [List.take_succ_cons, List.take_left]
    have hdr : List.drop (1 + rest.length) (c0 :: (rest ++ ' ' :: tail)) = ' ' :: tail := by
      rw [show (1 + rest.length) = rest.length + 1 by omega]
      simp [List.drop_succ_cons, List.drop_left]
    have hlen : ¬(List.length (c0 :: (rest ++ ' ' :: tail)) < 3) := by
      simp
      omega
    have hlen2 : (rest.length + (tail.length + 1) + 1 < 3) = False :=
      eq_false (by omega)
    simp [tzParse, parseTimeZone, parseSignedOffset, hsignT, hlen, hlen2,
      hcU, hcC, hcM, hcG, hcW, hL, hC, hng, hrlen, ht, hdr]

/-- `daysIn` never exceeds 31. -/
theorem daysIn_le_31 (y m : Nat) : daysIn y m ≤ 31 := by
  unfold daysIn
  split <;> split <;> omega

/-- C9 counterexample: the round trip is not unconditional.  A machine
whose zone database names its zone `+0545` (Asia/Kathmandu) writes
`Fri Oct  9 12:30:07 +0545 2026`, and the read path rejects it: the
digits read as 545, which `parseSignedOffset` refuses (its number may
not exceed 23), so this state file written by a successful run is later
rejected as corrupted. -/
theorem unixDate_no_roundtrip_plus0545 :
    parseUnixDate (formatUnixDate ⟨5, 10, 9, 12, 30, 7, "+0545", 2026⟩) =
      none := by
  decide

/-- C9 amended: every timestamp with the date and clock fields a real
clock produces (weekday index below 7, month 1-12, day within the
month, clock fields in range, year below 10000) and a zone abbreviation
of a shape the read path accepts back (`goodZone`: three uppercase
letters; four or five uppercase letters ending in `T` not starting with
`GMT`/`UTC`; `ChST`, `MeST`, `WITA`; or a signed offset reading as at
most 23, e.g. `+05`) formatted by the write path's `UnixDate` layout
parses back successfully, and to the same value, under the layout used
on the read path; such a state file is never rejected as corrupted by a
later run. -/
theorem unixDate_roundtrip (t : Timestamp)
    (hw : t.wday < 7)
    (hm1 : 1 ≤ t.month) (hm2 : t.month ≤ 12)
    (hd1 : 1 ≤ t.day) (hd2 : t.day ≤ daysIn t.year t.month)
    (hh : t.hour < 24) (hmn : t.minute < 60) (hsec : t.second < 60)
    (htz : goodZone t.tz = true)
    (hy : t.year ≤ 9999) :
    parseUnixDate (formatUnixDate t) = some t := by
  obtain ⟨w, mo, d, h, mn, sec, tz, y⟩ := t
  replace hw : w < 7 := hw
  replace hm1 : 1 ≤ mo := hm1
  replace hm2 : mo ≤ 12 := hm2
  replace hd1 : 1 ≤ d := hd1
  replace hd2 : d ≤ daysIn y mo := hd2
  replace hh : h < 24 := hh
  replace hmn : mn < 60 := hmn
  replace hsec : sec < 60 := hsec
  replace htz : goodZone tz = true := htz
  replace hy : y ≤ 9999 := hy
  have hd31 : d ≤ 31 := le_trans hd2 (daysIn_le_31 y mo)
  have hmo : mo - 1 + 1 = mo := by omega
  simp only [parseUnixDate, formatUnixDate, formatChars, parseChars,
    lookup_weekday w hw, stripLit_single,
    lookup_month mo hm1 hm2,
    dayNum_dayChars d hd1 hd31,
    num2_pad2c h (by omega), num2_pad2c mn (by omega),
    num2_pad2c sec (by omega),
    tzParse_good tz htz,
    num4_pad4c_nil y (by omega),
    hmo]
  simp [hh, hmn, hsec, hd1, hd2, hmo]

/-- Witness for C9's amended statement: `Fri Oct  9 12:30:07 AEDT 2026`
(a four-letter zone abbreviation) survives the format/parse round
trip. -/
theorem unixDate_roundtrip_witness :
    parseUnixDate (formatUnixDate ⟨5, 10, 9, 12, 30, 7, "AEDT", 2026⟩) =
      some ⟨5, 10, 9, 12, 30, 7, "AEDT", 2026⟩ :=
  unixDate_roundtrip ⟨5, 10, 9, 12, 30, 7, "AEDT", 2026⟩
    (by decide) (by decide) (by decide) (by decide) (by decide)
    (by decide) (by decide) (by decide) (by decide) (by decide)

/-! ## Linearising timestamps (for `time.Since`)

`overloadProtection` compares `time.Since(tim) = now - tim` against the
minimum interval.  We linearise a broken-down `Timestamp` to nanoseconds
through the standard civil-calendar day count (all timestamps in the one
zone the program runs in; durations are `Int` nanoseconds as Go's
`time.Duration` is an `int64` nanosecond count). -/

/-- Day count of a civil date relative to 1970-01-01 (the standard
era-based civil-from-days algorithm; division truncates toward zero as in
the reference formulation, and all intermediate values it is applied to
are nonnegative). -/
def daysFromCivil (year month day : Nat) : Int :=
  let y : Int := if month ≤ 2 then (year : Int) - 1 else (year : Int)
  let era : Int := (if 0 ≤ y then y else y - 399) / 400
  let yoe : Int := y - era * 400
  let mp : Int := if 2 < month then (month : Int) - 3 else (month : Int) + 9
  let doy : Int := (153 * mp + 2) / 5 + (day : Int) - 1
  let doe : Int := yoe * 365 + yoe / 4 - yoe / 100 + doy
  era * 146097 + doe - 719468

/-- A `Timestamp` as a number of nanoseconds (zone-relative instant). -/
def toNanos (t : Timestamp) : Int :=
  (daysFromCivil t.year t.month t.day * 86400 +
    (t.hour : Int) * 3600 + (t.minute : Int) * 60 + (t.second : Int)) *
    1000000000

/-- `time.Since(tim)` evaluated at instant `now`: the elapsed
nanoseconds `now - tim`. -/
def timeSince (now tim : Timestamp) : Int := toNanos now - toNanos tim

/-! ## Home directory resolution (`homeDir`, src/unnamed/part_000
lines 65-84) -/

/-- The result of `os.Stat` on a path: the path does not exist, `Stat`
failed for another reason, or the path exists (with or without the
directory mode bit). -/
inductive StatRes where
  | notExist
  | otherError
  | found (isDir : Bool)
deriving DecidableEq, Repr

/-- `os.IsNotExist` on a `StatRes`. -/
def StatRes.isNotExist : StatRes → Bool
  | .notExist => true
  | _ => false

/-- Whether `os.Stat` returned a non-`IsNotExist` error. -/
def StatRes.isOtherError : StatRes → Bool
  | .otherError => true
  | _ => false

/-- The environment `homeDir` consults: the `HOME` variable (empty string
when unset), the result of `user.Current()` (`.error` when it fails,
otherwise the account's home directory), and `os.Stat` as a function of
the path. -/
structure HomeEnv where
  homeEnvVar : String
  userCurrent : Except String String
  stat : String → StatRes

/-- `os.ModeDir` (Go `io/fs`: bit 31 of a `FileMode`). -/
def osModeDir : Nat := 1 <<< 31

/-- `os.ModeType`: the union of the Go type-mode bits
`ModeDir | ModeSymlink | ModeNamedPipe | ModeSocket | ModeDevice |
ModeCharDevice | ModeIrregular`. -/
def osModeType : Nat :=
  osModeDir ||| (1 <<< 27) ||| (1 <<< 25) ||| (1 <<< 24) |||
    (1 <<< 26) ||| (1 <<< 21) ||| (1 <<< 19)

/-- Go `FileMode.IsDir()`: whether the `ModeDir` bit is set. -/
def fileModeIsDir (m : Nat) : Bool := m &&& osModeDir ≠ 0

/-- `homeDir` (src/unnamed/part_000 lines 65-84): take `HOME`, falling
back to `user.Current()` when it is empty; then `os.Stat` the path and
fail when it does not exist — the source tests
`os.IsNotExist(err) || !os.ModeType.IsDir()`, where `os.ModeType.IsDir()`
inspects the constant `os.ModeType` (not the stat result), so the second
disjunct is embedded exactly as that constant test. -/
def homeDir (env : HomeEnv) : Except String String :=
  let fromEnv : Except String String :=
    if env.homeEnvVar = "" then
      match env.userCurrent with
      | .error e => .error ("unable to get information for current user: \"" ++ e ++ "\"")
      | .ok h => .ok h
    else .ok env.homeEnvVar
  match fromEnv with
  | .error e => .error e
  | .ok home =>
    let st := env.stat home
    if st.isNotExist || !(fileModeIsDir osModeType) then
      .error ("home directory \"" ++ home ++ "\" must exist and be a directory")
    else if st.isOtherError then
      .error "stat failed"
    else .ok home

/-! ## The rate limiter (`overloadProtection`, src/unnamed/part_000
lines 89-126) -/

/-- The state file name constant (`stateFile` in src/unnamed/part_000). -/
def stateFileName : String := ".testmynet-cli.state"

/-- The minimum interval constant (`minDurationMinutes`). -/
def minDurationMinutes : Nat := 15

/-- `time.Duration(minDurationMinutes * time.Minute)` in nanoseconds. -/
def minDurationNanos : Int := (minDurationMinutes : Int) * 60 * 1000000000

/-- The on-disk rate-limit state file: its text content and its
permission bits. -/
structure StateFile where
  content : String
  mode : Nat
deriving DecidableEq, Repr

/-- The state file's filesystem state; `none` means it does not exist. -/
abbrev FsState := Option StateFile

/-- I/O failure switches for the two file operations of
`overloadProtection`: `readErr` makes `ioutil.ReadFile` fail with an
error that is not `IsNotExist`; `writeErr` makes `ioutil.WriteFile`
fail. -/
structure IOEnv where
  readErr : Bool
  writeErr : Bool
deriving DecidableEq, Repr

/-- The errors `overloadProtection` can return. -/
inductive OPError where
  | homeErr (msg : String)
  | readErr
  | parseErr
  | tooSoon (minDuration elapsed : Int)
  | writeErr
deriving DecidableEq, Repr

/-- `overloadProtection` (src/unnamed/part_000 lines 89-126), with the
environment explicit.  Returns the Go return value together with the
resulting state of the state file.  Reading: success yields the content;
a missing file is the `IsNotExist` error (the `switch` falls through to
the write); `io.readErr` is any other read error.  On the write,
`ioutil.WriteFile(fname, tformat, 0644)` creates a missing file with
permission bits `0644` and truncates an existing one keeping its mode;
a failing write is modelled as having truncated the file. -/
def overloadProtection (henv : HomeEnv) (io : IOEnv) (now : Timestamp)
    (minDuration : Int) (fs : FsState) : Except OPError Unit × FsState :=
  match homeDir henv with
  | .error e => (.error (.homeErr e), fs)
  | .ok _ =>
    let check : Except OPError Unit :=
      if io.readErr then .error .readErr
      else
        match fs with
        | none => .ok ()
        | some f =>
          match parseUnixDate f.content with
          | none => .error .parseErr
          | some tim =>
            if timeSince now tim < minDuration then
              .error (.tooSoon minDuration (timeSince now tim))
            else .ok ()
    match check with
    | .error e => (.error e, fs)
    | .ok _ =>
      let newMode : Nat :=
        match fs with
        | none => 0o644
        | some f => f.mode
      if io.writeErr then (.error .writeErr, some ⟨"", newMode⟩)
      else (.ok (), some ⟨formatUnixDate now, newMode⟩)

/-! ## Reporter / entry point (`main`, src/unnamed/part_000
lines 128-163) -/

/-- An exact fraction of integers, the model of the `float64` values of
`main` (duration seconds and bandwidth; the claims' concrete values are
exactly representable, so exact fractions coincide with the floats
there).  Not kept normalised. -/
structure Frac where
  num : Int
  den : Int
deriving DecidableEq, Repr

/-- Embed an integer as a fraction. -/
def Frac.ofInt (n : Int) : Frac := ⟨n, 1⟩

/-- Fraction multiplication. -/
def Frac.mul (a b : Frac) : Frac := ⟨a.num * b.num, a.den * b.den⟩

/-- Fraction division. -/
def Frac.div (a b : Frac) : Frac := ⟨a.num * b.den, a.den * b.num⟩

/-- Round a fraction to the nearest integer, ties to even (the rounding
of Go's `%.Nf` formatting). -/
def roundHalfEven (f : Frac) : Int :=
  let n := if f.den < 0 then -f.num else f.num
  let d := if f.den < 0 then -f.den else f.den
  let q := n.fdiv d
  let r := n - q * d
  if 2 * r < d then q
  else if 2 * r > d then q + 1
  else if q % 2 = 0 then q else q + 1

/-- Left-pad a string with zeros to the given width. -/
def padZeros (width : Nat) (s : String) : String :=
  String.mk (List.replicate (width - s.length) '0') ++ s

/-- Go's `%.Nf` verb over exact fractions: fixed-point decimal with
exactly `prec` digits after the point. -/
def formatFixed (prec : Nat) (f : Frac) : String :=
  let m : Nat := 10 ^ prec
  let n := roundHalfEven ⟨f.num * (m : Int), f.den⟩
  let sign := if n < 0 then "-" else ""
  let a := n.natAbs
  if prec = 0 then sign ++ toString (a / m)
  else sign ++ toString (a / m) ++ "." ++ padZeros prec (toString (a % m))

/-- The bandwidth computation of `main` (line 156):
`(float64(bytes) * 8 / duration.Seconds()) / 1e6`, over exact
fractions. -/
def bandwidthMbps (bytes : Int) (seconds : Frac) : Frac :=
  ((Frac.ofInt bytes).mul (Frac.ofInt 8)).div seconds |>.div (Frac.ofInt 1000000)

/-- The CSV output line of `main` (line 158):
`fmt.Printf("%s,%d,%.2f,%.3f\n", opt.server, bytes, duration.Seconds(), bw)`,
without the terminating newline (a line's content). -/
def csvLine (server : String) (bytes : Int) (seconds : Frac) : String :=
  server ++ ("," ++ toString bytes ++ "," ++ formatFixed 2 seconds ++ "," ++
    formatFixed 3 (bandwidthMbps bytes seconds))

/-- An error that aborts `main` via `log.Fatalf`. -/
inductive MainError where
  | downloadFailed
  | rateLimited (e : OPError)
deriving DecidableEq, Repr

/-- The state-affecting part of `main` (src/unnamed/part_000
lines 143-153): the download runs first (its dry-run flag only changes
the measured values, not the control flow modelled here); then, unless
`opt.force` is set, `overloadProtection` runs with the state file name
and the 15-minute minimum; any error is fatal. -/
def mainRun (opt : cmdLineOpts) (henv : HomeEnv) (io : IOEnv)
    (now : Timestamp) (downloadErr : Bool) (fs : FsState) :
    Except MainError Unit × FsState :=
  if downloadErr then (.error .downloadFailed, fs)
  else if opt.force = false then
    match overloadProtection henv io now minDurationNanos fs with
    | (.error e, fs') => (.error (.rateLimited e), fs')
    | (.ok _, fs') => (.ok (), fs')
  else (.ok (), fs)

/-- A healthy home environment for concrete runs: `HOME` set to an
existing directory. -/
def goodHomeEnv : HomeEnv :=
  ⟨"/home/user", .ok "/home/user", fun _ => .found true⟩

/-- No injected file I/O failures. -/
def cleanIO : IOEnv := ⟨false, false⟩

/-- A concrete instant: Fri Oct 9 12:30:07 UTC 2026. -/
def sampleNow : Timestamp := ⟨5, 10, 9, 12, 30, 7, "UTC", 2026⟩

/-- C1. The rate limiter's contract, for a run whose environment is
healthy (home directory resolves, no injected read or write failure):
a missing state file means success and a file created holding the
current timestamp; an existing file whose content does not parse fails
with the parse error; a parsed timestamp less than the minimum interval
old fails with an error carrying both the configured minimum and the
actual elapsed time; and otherwise the call succeeds and overwrites the
file with the current timestamp. -/
theorem overloadProtection_spec (henv : HomeEnv) (io : IOEnv)
    (now : Timestamp) (minDuration : Int) (fs : FsState)
    (hhome : ∃ p, homeDir henv = .ok p)
    (hr : io.readErr = false) (hw : io.writeErr = false) :
    (fs = none →
      overloadProtection henv io now minDuration fs =
        (.ok (), some ⟨formatUnixDate now, 0o644⟩)) ∧
    (∀ f, fs = some f → parseUnixDate f.content = none →
      overloadProtection henv io now minDuration fs = (.error .parseErr, fs)) ∧
    (∀ f tim, fs = some f → parseUnixDate f.content = some tim →
      timeSince now tim < minDuration →
      overloadProtection henv io now minDuration fs =
        (.error (.tooSoon minDuration (timeSince now tim)), fs)) ∧
    (∀ f tim, fs = some f → parseUnixDate f.content = some tim →
      minDuration ≤ timeSince now tim →
      overloadProtection henv io now minDuration fs =
        (.ok (), some ⟨formatUnixDate now, f.mode⟩)) := by
  obtain ⟨p, hp⟩ := hhome
  refine ⟨?_, ?_, ?_, ?_⟩
  · rintro rfl
    simp [overloadProtection, hp, hr, hw]
  · rintro f rfl hparse
    simp [overloadProtection, hp, hr, hparse]
  · rintro f tim rfl hparse hlt
    simp [overloadProtection, hp, hr, hparse, hlt]
  · rintro f tim rfl hparse hge
    simp [overloadProtection, hp, hr, hw, hparse, not_lt.mpr hge]

/-- Witness for C1 (first branch): a first-ever run creates the state
file with the current timestamp. -/
theorem overloadProtection_spec_witness :
    overloadProtection goodHomeEnv cleanIO sampleNow minDurationNanos none =
      (.ok (), some ⟨formatUnixDate sampleNow, 0o644⟩) :=
  (overloadProtection_spec goodHomeEnv cleanIO sampleNow minDurationNanos none
    ⟨"/home/user", rfl⟩ rfl rfl).1 rfl

/-- C10. Atomicity on error: whenever `overloadProtection` returns an
error other than a write failure (home-directory failure, read error,
timestamp parse failure, or too-soon rate-limit violation), the state
file is left exactly as it was; the current timestamp is written only
after every check has passed. -/
theorem overloadProtection_error_frame (henv : HomeEnv) (io : IOEnv)
    (now : Timestamp) (minDuration : Int) (fs : FsState) (e : OPError)
    (h : (overloadProtection henv io now minDuration fs).1 = .error e)
    (hne : e ≠ OPError.writeErr) :
    (overloadProtection henv io now minDuration fs).2 = fs := by
  unfold overloadProtection at h ⊢
  rcases hh : homeDir henv with msg | p
  · rfl
  · rw [hh] at h
    by_cases hre : io.readErr
    · simp [hre]
    · rcases fs with _ | f
      · by_cases hwe : io.writeErr
        · simp [hre, hwe] at h
          exact absurd h.symm hne
        · simp [hre, hwe] at h
      · rcases hparse : parseUnixDate f.content with _ | tim
        · simp [hre, hparse]
        · by_cases hlt : timeSince now tim < minDuration
          · simp [hre, hparse, hlt]
          · by_cases hwe : io.writeErr
            · simp [hre, hparse, hlt, hwe] at h
              exact absurd h.symm hne
            · simp [hre, hparse, hlt, hwe] at h

/-- Witness for C10: a corrupted state file is left untouched by the
failing call. -/
theorem overloadProtection_error_frame_witness :
    (overloadProtection goodHomeEnv cleanIO sampleNow minDurationNanos
        (some ⟨"garbage", 0o600⟩)).2 = some ⟨"garbage", 0o600⟩ :=
  overloadProtection_error_frame goodHomeEnv cleanIO sampleNow minDurationNanos
    (some ⟨"garbage", 0o600⟩) .parseErr rfl (by decide)

/-- Options for a dry run without force (and with the server already
resolved, as `main` receives them). -/
def optDryRun : cmdLineOpts :=
  ⟨false, 10240, true, false, "ca", "http://ca.testmy.net", 0⟩

/-- Options with the force flag set. -/
def optForce : cmdLineOpts :=
  ⟨false, 10240, false, true, "ca", "http://ca.testmy.net", 0⟩

/-- C3 counterexample: a dry run with force unset and no prior state file
does create the state file — `main` consults the rate limiter regardless
of dry-run mode. -/
theorem mainRun_dryrun_writes_state :
    (mainRun optDryRun goodHomeEnv cleanIO sampleNow false none).2 ≠ none := by
  decide

/-- C3 amended: dry-run mode is irrelevant to the rate limiter — with
force unset, a run's effect on the state file is exactly
`overloadProtection`'s, whether or not dry-run is set. -/
theorem mainRun_dryrun_irrelevant (opt : cmdLineOpts) (henv : HomeEnv)
    (io : IOEnv) (now : Timestamp) (fs : FsState)
    (hf : opt.force = false) :
    mainRun { opt with dryrun := true } henv io now false fs =
      mainRun { opt with dryrun := false } henv io now false fs ∧
    (mainRun opt henv io now false fs).2 =
      (overloadProtection henv io now minDurationNanos fs).2 := by
  rcases hop : overloadProtection henv io now minDurationNanos fs with ⟨r, fs2⟩
  rcases r with er | u
  · constructor
    · simp [mainRun, hf, hop]
    · simp [mainRun, hf, hop]
  · constructor
    · simp [mainRun, hf, hop]
    · simp [mainRun, hf, hop]

/-- Witness for C3's amended statement, at the concrete dry-run
options. -/
theorem mainRun_dryrun_irrelevant_witness :
    (mainRun { optDryRun with dryrun := true } goodHomeEnv cleanIO sampleNow
        false none =
      mainRun { optDryRun with dryrun := false } goodHomeEnv cleanIO sampleNow
        false none) ∧
    (mainRun optDryRun goodHomeEnv cleanIO sampleNow false none).2 =
      (overloadProtection goodHomeEnv cleanIO sampleNow minDurationNanos
        none).2 :=
  mainRun_dryrun_irrelevant optDryRun goodHomeEnv cleanIO sampleNow none rfl

/-- C4. With the force flag set the rate limiter is never consulted: the
state file is left untouched and the run succeeds (given a successful
download), whatever the state file holds. -/
theorem mainRun_force_skips_rate_limiter (opt : cmdLineOpts)
    (henv : HomeEnv) (io : IOEnv) (now : Timestamp) (fs : FsState)
    (hf : opt.force = true) :
    mainRun opt henv io now false fs = (.ok (), fs) := by
  simp [mainRun, hf]

/-- Witness for C4: with force set, a run succeeds even though the state
file holds a timestamp recorded just now (zero elapsed time), and the
file is unchanged. -/
theorem mainRun_force_skips_rate_limiter_witness :
    mainRun optForce goodHomeEnv cleanIO sampleNow false
        (some ⟨formatUnixDate sampleNow, 0o644⟩) =
      (.ok (), some ⟨formatUnixDate sampleNow, 0o644⟩) :=
  mainRun_force_skips_rate_limiter optForce goodHomeEnv cleanIO sampleNow
    (some ⟨formatUnixDate sampleNow, 0o644⟩) rfl

/-- C2 counterexample: the CSV line for bytes 1,000,000 and duration 8 s
is not `<server>,1000000,8.000,1.000` — seconds are printed with two
decimal places (`%.2f`), not three. -/
theorem csvLine_seconds_not_three_decimals :
    csvLine "http://ca.testmy.net" 1000000 (Frac.ofInt 8) ≠
      "http://ca.testmy.net,1000000,8.000,1.000" := by
  decide

/-- C2 amended: the CSV line is `server,bytes,seconds,mbps` with seconds
at 2 decimal places and mbps at 3; for bytes 1,000,000 and duration 8 s
it is `<server>,1000000,8.00,1.000` for every server. -/
theorem csvLine_dry_run_output (server : String) :
    csvLine server 1000000 (Frac.ofInt 8) = server ++ ",1000000,8.00,1.000" := by
  unfold csvLine
  rw [(by decide :
    ("," ++ toString (1000000 : Int) ++ "," ++ formatFixed 2 (Frac.ofInt 8) ++ "," ++
      formatFixed 3 (bandwidthMbps 1000000 (Frac.ofInt 8))) = ",1000000,8.00,1.000")]

/-- The environment of a `HOME` path that exists but is a regular file,
not a directory. -/
def regularFileHomeEnv : HomeEnv :=
  ⟨"/home/user", .ok "", fun _ => .found false⟩

/-- C7 (code evaluated at the failing input): when `HOME` names an
existing regular file — `os.Stat` reports it exists without the
directory bit — `homeDir` nevertheless returns the path successfully,
because the source tests the constant `os.ModeType.IsDir()` instead of
the stat result's mode. -/
theorem homeDir_accepts_regular_file :
    homeDir regularFileHomeEnv = .ok "/home/user" ∧
      regularFileHomeEnv.stat "/home/user" = .found false :=
  ⟨rfl, rfl⟩

/-- C8 counterexample: the state file is created with mode `0o644`,
whose group/other permission bits (`0o077` mask) are not all clear, so
it is not read/write for the owner only. -/
theorem stateFile_create_mode_not_owner_only :
    ((overloadProtection goodHomeEnv cleanIO sampleNow minDurationNanos
        none).2.map StateFile.mode) = some 0o644 ∧
      0o644 &&& 0o077 ≠ 0 := by
  constructor
  · decide
  · decide

/-- C8 amended: a successful run of the rate limiter in a healthy
environment writes the state file with the current timestamp; when the
file is created it gets permission bits `0o644` (owner read/write,
group and others read), and when it already existed its permission bits
are kept. -/
theorem stateFile_write_mode (henv : HomeEnv) (io : IOEnv)
    (now : Timestamp) (minDuration : Int) (fs : FsState)
    (hhome : ∃ p, homeDir henv = .ok p)
    (hr : io.readErr = false) (hw : io.writeErr = false)
    (hok : (overloadProtection henv io now minDuration fs).1 = .ok ()) :
    (overloadProtection henv io now minDuration fs).2 =
      some ⟨formatUnixDate now, (fs.map StateFile.mode).getD 0o644⟩ := by
  obtain ⟨p, hp⟩ := hhome
  unfold overloadProtection at hok ⊢
  rw [hp] at hok ⊢
  rcases fs with _ | f
  · simp [hr, hw]
  · rcases hparse : parseUnixDate f.content with _ | tim
    · simp [hr, hparse] at hok
    · by_cases hlt : timeSince now tim < minDuration
      · simp [hr, hparse, hlt] at hok
      · simp [hr, hparse, hlt, hw]

/-- Witness for C8's amended statement: creation from no prior state
file yields mode `0o644`. -/
theorem stateFile_write_mode_witness :
    (overloadProtection goodHomeEnv cleanIO sampleNow minDurationNanos
        none).2 =
      some ⟨formatUnixDate sampleNow,
        ((none : FsState).map StateFile.mode).getD 0o644⟩ :=
  stateFile_write_mode goodHomeEnv cleanIO sampleNow minDurationNanos none
    ⟨"/home/user", rfl⟩ rfl rfl rfl
